import Mathlib

/-!
Shallow embedding of the clinic front-desk management application
(`frontdesk/models.py`, `frontdesk/forms.py`, `frontdesk/views.py`).

Modelling conventions:
* Calendar dates are abstract day identifiers (`Nat`), except where a claim
  depends on the `YYYYMMDD` rendering, where a date is a `Ymd` triple.
* Times of day and `DateTimeField` instants are minute counts (`Nat`).
  A Python `datetime.combine(date, time) < now` comparison is the
  lexicographic comparison `dtLt` on the (date, time) pair.
* The database is an explicit list of records; Django querysets become
  `List.filter` / `List.any` / `List.find?` over it, and `save()` becomes
  functional record update.
* `timezone.now()` and the naive `datetime.now()`/`date.today()` readings
  are passed in as explicit clock parameters, so that code paths using
  different clock functions receive possibly different readings.
-/

/-- Appointment status values (`Appointment.STATUS_CHOICES` in models.py). -/
inductive AStatus where
  | scheduled
  | confirmed
  | checked_in
  | in_progress
  | completed
  | cancelled
  | no_show
  | rescheduled
deriving DecidableEq, Repr

/-- One row of the `appointment` table (models.py `Appointment`), with the
fields the front-desk logic reads or writes.  `pk` is the ORM primary key. -/
structure Appointment where
  pk : Nat
  appointment_id : String
  patient : Nat
  doctor : Nat
  appointment_date : Nat
  appointment_time : Nat
  duration : Nat
  status : AStatus
  appointment_type : Nat
  reason_for_visit : String
  symptoms : String
  special_instructions : String
  scheduled_by : Option Nat
  is_confirmed : Bool
  confirmed_at : Option (Nat × Nat)
  checked_in_at : Option (Nat × Nat)
  consultation_start_time : Option (Nat × Nat)
  consultation_end_time : Option (Nat × Nat)
  cancellation_reason : String
  cancelled_at : Option (Nat × Nat)
  cancelled_by : Option Nat
  rescheduled_from : Option Nat
  notes : String
deriving DecidableEq, Repr

/-- Strict lexicographic comparison of (date, time) pairs: the meaning of
`datetime.combine(d, t) < datetime.combine(d2, t2)` for in-range values. -/
def dtLtB (d t d2 t2 : Nat) : Bool :=
  d < d2 || (d == d2 && t < t2)

/-- The three statuses treated as occupying a slot
(`status__in=['scheduled', 'confirmed', 'checked_in']`). -/
def activeStatuses : List AStatus := [.scheduled, .confirmed, .checked_in]

/-- The conflict queryset shared by `AppointmentForm.clean` and
`AppointmentRescheduleForm.clean` (forms.py): an existing appointment for
the same doctor, date and time whose status is active, excluding at most
one primary key (`.exclude(pk=...)`; `excludePk = none` models the
new-form case `pk=None`, which excludes nothing). -/
def slotConflictB (db : List Appointment) (doctor dte tme : Nat)
    (excludePk : Option Nat) : Bool :=
  db.any fun a =>
    a.doctor == doctor && a.appointment_date == dte && a.appointment_time == tme
      && activeStatuses.contains a.status && excludePk != some a.pk

/-- Validation errors raised by the appointment forms' `clean` methods. -/
inductive FormError where
  | pastDate
  | slotConflict
deriving DecidableEq, Repr

instance {ε α : Type} [DecidableEq ε] [DecidableEq α] :
    DecidableEq (Except ε α) := fun x y =>
  match x, y with
  | .ok a, .ok b =>
      if h : a = b then isTrue (by rw [h])
      else isFalse (by intro hc; cases hc; exact h rfl)
  | .error e, .error f =>
      if h : e = f then isTrue (by rw [h])
      else isFalse (by intro hc; cases hc; exact h rfl)
  | .ok _, .error _ => isFalse (by intro hc; cases hc)
  | .error _, .ok _ => isFalse (by intro hc; cases hc)

/-- `AppointmentForm.clean` (forms.py lines 273-302), for submissions where
doctor, date and time are all present: first the timezone-aware
not-in-the-past check against `timezone.now()` (clock reading
`(nowD, nowT)`), then the active-status conflict check. -/
def appointmentFormClean (db : List Appointment) (doctor dte tme : Nat)
    (nowD nowT : Nat) (excludePk : Option Nat) : Except FormError Unit :=
  if dtLtB dte tme nowD nowT then .error .pastDate
  else if slotConflictB db doctor dte tme excludePk then .error .slotConflict
  else .ok ()

/-- The property "some appointment in the database occupies (doctor, dte, tme)
with an active status", as the claim states the conflict condition. -/
def HasActiveConflict (db : List Appointment) (doctor dte tme : Nat) : Prop :=
  ∃ a ∈ db, a.doctor = doctor ∧ a.appointment_date = dte ∧
    a.appointment_time = tme ∧ a.status ∈ activeStatuses

instance (db : List Appointment) (doctor dte tme : Nat) :
    Decidable (HasActiveConflict db doctor dte tme) := by
  unfold HasActiveConflict
  infer_instance

theorem contains_eq_mem_status {s : AStatus} {l : List AStatus} :
    l.contains s = true ↔ s ∈ l := by
  rw [List.contains_iff_exists_mem_beq]
  constructor
  · rintro ⟨x, hx, he⟩
    exact beq_iff_eq.mp he ▸ hx
  · intro h
    exact ⟨s, h, beq_iff_eq.mpr rfl⟩

theorem slotConflictB_none_iff (db : List Appointment) (doctor dte tme : Nat) :
    slotConflictB db doctor dte tme none = true ↔
      HasActiveConflict db doctor dte tme := by
  unfold slotConflictB HasActiveConflict
  rw [List.any_eq_true]
  constructor
  · rintro ⟨a, ha, hb⟩
    simp only [Bool.and_eq_true, beq_iff_eq, bne_iff_ne, ne_eq] at hb
    exact ⟨a, ha, hb.1.1.1.1, hb.1.1.1.2, hb.1.1.2,
      contains_eq_mem_status.mp hb.1.2⟩
  · rintro ⟨a, ha, h1, h2, h3, h4⟩
    refine ⟨a, ha, ?_⟩
    simp only [Bool.and_eq_true, beq_iff_eq, bne_iff_ne, ne_eq]
    exact ⟨⟨⟨⟨h1, h2⟩, h3⟩, contains_eq_mem_status.mpr h4⟩, by simp⟩

/-- C1: Scheduling an appointment for a given (doctor, date, time) is rejected
with a slot-conflict error exactly when some existing appointment for the same
doctor, date and time has an active status (scheduled / confirmed /
checked_in), and accepted exactly when no such appointment exists, for every
database state and every input whose slot is not in the past. -/
theorem appointmentFormClean_conflict (db : List Appointment)
    (doctor dte tme nowD nowT : Nat)
    (hnp : dtLtB dte tme nowD nowT = false) :
    (appointmentFormClean db doctor dte tme nowD nowT none =
        .error .slotConflict ↔ HasActiveConflict db doctor dte tme) ∧
    (appointmentFormClean db doctor dte tme nowD nowT none = .ok () ↔
        ¬ HasActiveConflict db doctor dte tme) := by
  unfold appointmentFormClean
  rw [hnp]
  simp only [Bool.false_eq_true, if_false]
  by_cases hc : HasActiveConflict db doctor dte tme
  · rw [(slotConflictB_none_iff db doctor dte tme).mpr hc]
    simp [hc]
  · have hb : slotConflictB db doctor dte tme none = false := by
      rw [← Bool.not_eq_true]
      exact fun h => hc ((slotConflictB_none_iff db doctor dte tme).mp h)
    rw [hb]
    simp [hc]

/-- A sample appointment record used by concrete witnesses. -/
def sampleAppt : Appointment :=
  { pk := 1, appointment_id := "APT202601050001", patient := 7, doctor := 3,
    appointment_date := 40, appointment_time := 570, duration := 30,
    status := .scheduled, appointment_type := 0,
    reason_for_visit := "checkup", symptoms := "", special_instructions := "",
    scheduled_by := some 2, is_confirmed := false, confirmed_at := none,
    checked_in_at := none, consultation_start_time := none,
    consultation_end_time := none, cancellation_reason := "",
    cancelled_at := none, cancelled_by := none, rescheduled_from := none,
    notes := "" }

/-- Witness for C1 at a concrete state: with `sampleAppt` (doctor 3,
date 40, time 570, status scheduled) in the database and now = (day 39,
minute 0), booking (3, 40, 570) is rejected with the slot-conflict error and
booking (3, 40, 600) is accepted. -/
theorem appointmentFormClean_conflict_witness :
    (appointmentFormClean [sampleAppt] 3 40 570 39 0 none =
        .error .slotConflict) ∧
    (appointmentFormClean [sampleAppt] 3 40 600 39 0 none = .ok ()) := by
  refine ⟨?_, ?_⟩
  · exact ((appointmentFormClean_conflict [sampleAppt] 3 40 570 39 0
      (by decide)).1).mpr (by decide)
  · exact ((appointmentFormClean_conflict [sampleAppt] 3 40 600 39 0
      (by decide)).2).mpr (by decide)

/-- Calendar date as rendered by `strftime`: year, month, day. -/
structure Ymd where
  y : Nat
  m : Nat
  d : Nat
deriving DecidableEq, Repr

/-- One row of the `queue` table (models.py `Queue`), with the fields the
queue views read.  `status` and `priority` are kept as the stored
`CharField` strings, since the database sorts and compares those strings. -/
structure QueueEntry where
  pk : Nat
  queue_number : String
  patient : Nat
  doctor : Option Nat
  status : String
  priority : String
  arrival_time : Nat
  estimated_wait_time : Nat
  queue_date : Ymd
deriving DecidableEq, Repr

/-- Strict lexicographic order on character lists: the database's binary
collation on stored `CharField` strings. -/
def charListLtB : List Char → List Char → Bool
  | [], [] => false
  | [], _ :: _ => true
  | _ :: _, [] => false
  | c :: cs, d :: ds =>
      c.toNat < d.toNat || (c.toNat == d.toNat && charListLtB cs ds)

/-- Strict lexicographic order on strings (binary collation). -/
def strLtB (a b : String) : Bool := charListLtB a.toList b.toList

/-- The sort key of `.order_by('priority', 'arrival_time')` (and of
`Queue.Meta.ordering`): ascending on the priority string (database
collation = lexicographic character order) with ascending arrival
timestamp as tiebreak. -/
def queueKeyLe (a b : QueueEntry) : Bool :=
  strLtB a.priority b.priority
    || (a.priority == b.priority && decide (a.arrival_time ≤ b.arrival_time))

/-- Insertion of one element into a list sorted by `le`. -/
def insertSorted (le : α → α → Bool) (x : α) : List α → List α
  | [] => [x]
  | y :: ys => if le x y then x :: y :: ys else y :: insertSorted le x ys

/-- Stable sort by `le` (insertion sort), modelling the database `ORDER BY`. -/
def sortByKey (le : α → α → Bool) : List α → List α
  | [] => []
  | x :: xs => insertSorted le x (sortByKey le xs)

/-- `queue_management_view` listing (views.py lines 226-228): today's queue
entries ordered by `('priority', 'arrival_time')`. -/
def queue_management_listing (db : List QueueEntry) (today : Ymd) :
    List QueueEntry :=
  sortByKey queueKeyLe (db.filter fun q => q.queue_date == today)

/-- `today_queue_view` listing (views.py lines 347-350): today's waiting or
with-doctor entries ordered by `('priority', 'arrival_time')`. -/
def today_queue_listing (db : List QueueEntry) (today : Ymd) :
    List QueueEntry :=
  sortByKey queueKeyLe (db.filter fun q =>
    q.queue_date == today && (q.status == "waiting" || q.status == "with_doctor"))

/-- Sample queue date for the concrete queue scenarios. -/
def qToday : Ymd := { y := 2025, m := 1, d := 15 }

/-- A normal-priority entry that arrived at minute 540. -/
def qNormal : QueueEntry :=
  { pk := 1, queue_number := "Q20250115001", patient := 1, doctor := some 3,
    status := "waiting", priority := "normal", arrival_time := 540,
    estimated_wait_time := 0, queue_date := qToday }

/-- An urgent-priority entry that arrived later, at minute 550. -/
def qUrgent : QueueEntry :=
  { pk := 2, queue_number := "Q20250115002", patient := 2, doctor := some 3,
    status := "waiting", priority := "urgent", arrival_time := 550,
    estimated_wait_time := 0, queue_date := qToday }

/-- An emergency-priority entry that arrived last, at minute 560. -/
def qEmergency : QueueEntry :=
  { pk := 3, queue_number := "Q20250115003", patient := 3, doctor := some 3,
    status := "waiting", priority := "emergency", arrival_time := 560,
    estimated_wait_time := 0, queue_date := qToday }

/-- C2 evaluation at the failing input: the views sort by the raw priority
string, which orders "emergency" < "normal" < "urgent" alphabetically.  With
a waiting normal entry (arrival 540), a waiting urgent entry (arrival 550)
and a waiting emergency entry (arrival 560), both queue listings place the
emergency entry first but the urgent entry LAST, after the normal entry —
whereas the claimed ordering (emergency, then urgent, then normal) requires
the urgent entry to precede the normal one. -/
theorem queue_listing_orders_urgent_after_normal :
    queue_management_listing [qNormal, qUrgent, qEmergency] qToday =
        [qEmergency, qNormal, qUrgent] ∧
    today_queue_listing [qNormal, qUrgent, qEmergency] qToday =
        [qEmergency, qNormal, qUrgent] := by
  constructor <;> decide

/-- `AppointmentRescheduleForm.clean` (forms.py lines 355-379), for
submissions where new date and time are present: the not-in-the-past check
compares against the naive `datetime.now()` (clock reading `(nlD, nlT)` of
the system-local wall clock, not the timezone-aware `timezone.now()`), and
the conflict check always excludes the appointment being rescheduled. -/
def rescheduleFormClean (db : List Appointment) (appt : Appointment)
    (newDate newTime : Nat) (nlD nlT : Nat) : Except FormError Unit :=
  if dtLtB newDate newTime nlD nlT then .error .pastDate
  else if slotConflictB db appt.doctor newDate newTime (some appt.pk) then
    .error .slotConflict
  else .ok ()

/-- C4 counterexample: at a call instant where the timezone-aware clock
reads (day 39, minute 0) but the naive local clock reads (day 40,
minute 400) — as happens whenever the configured timezone differs from the
system-local one — rescheduling `sampleAppt` to the free slot (day 40,
minute 300) is rejected as past by the reschedule form while the
schedule-appointment validation (excluding `sampleAppt`) accepts the same
slot, so the two validations are not equivalent at every call instant. -/
theorem reschedule_validation_clock_counterexample :
    ¬ ((rescheduleFormClean [sampleAppt] sampleAppt 40 300 40 400 = .ok ()) ↔
      (appointmentFormClean [sampleAppt] 3 40 300 39 0 (some 1) = .ok ())) := by
  decide

/-- C4 amended: whenever the naive local clock happens to read the same
date-time as the timezone-aware clock, the reschedule-form validation
accepts a new slot exactly when the schedule-appointment validation
(excluding the appointment being rescheduled from the conflict check)
accepts that same (doctor, newDate, newTime) slot; the two validations use
the same conflict check but different clock functions for the past check. -/
theorem reschedule_validation_agrees_with_schedule (db : List Appointment)
    (appt : Appointment) (newDate newTime nowD nowT nlD nlT : Nat)
    (hD : nlD = nowD) (hT : nlT = nowT) :
    rescheduleFormClean db appt newDate newTime nlD nlT = .ok () ↔
      appointmentFormClean db appt.doctor newDate newTime nowD nowT
        (some appt.pk) = .ok () := by
  subst hD hT
  rfl

/-- Witness for C4 (amended) at a concrete state: with equal clock readings
(day 39, minute 0), rescheduling `sampleAppt` to the free slot (41, 600)
is accepted by the reschedule form, and so is the same slot by the
schedule validation excluding `sampleAppt`. -/
theorem reschedule_validation_agrees_with_schedule_witness :
    (rescheduleFormClean [sampleAppt] sampleAppt 41 600 39 0 = .ok ()) ∧
    (appointmentFormClean [sampleAppt] 3 41 600 39 0 (some 1) = .ok ()) :=
  ⟨by decide,
   (reschedule_validation_agrees_with_schedule [sampleAppt] sampleAppt
      41 600 39 0 39 0 rfl rfl).mp (by decide)⟩

/-- `Appointment.is_past` (models.py lines 390-403): the appointment's
combined date-time is strictly before the clock reading. -/
def is_pastB (a : Appointment) (nowD nowT : Nat) : Bool :=
  dtLtB a.appointment_date a.appointment_time nowD nowT

/-- `Appointment.can_reschedule` (models.py lines 409-411). -/
def can_rescheduleB (a : Appointment) (nowD nowT : Nat) : Bool :=
  (a.status == AStatus.scheduled || a.status == AStatus.confirmed)
    && ! is_pastB a nowD nowT

/-- `Appointment.can_cancel` (models.py lines 405-407). -/
def can_cancelB (a : Appointment) (nowD nowT : Nat) : Bool :=
  (a.status == AStatus.scheduled || a.status == AStatus.confirmed)
    && ! is_pastB a nowD nowT

/-- The notes text written onto the original appointment by
`reschedule_appointment_view`. -/
def rescheduleNote (newDate newTime : Nat) (reason : String) : String :=
  "Rescheduled to " ++ toString newDate ++ " " ++ toString newTime
    ++ ". Reason: " ++ reason

/-- The new appointment built by `Appointment.objects.create(...)` in
`reschedule_appointment_view` (views.py lines 572-586): carries over
patient, doctor, duration, type, reason, symptoms, special instructions and
scheduler, put at the new slot with default status `scheduled`, and its
`rescheduled_from` back-reference points at the original.  `newPk` is the
primary key the store assigns; `newId` is the generated appointment id. -/
def mkRescheduledAppointment (appt : Appointment) (newDate newTime : Nat)
    (newPk : Nat) (newId : String) : Appointment :=
  { pk := newPk, appointment_id := newId, patient := appt.patient,
    doctor := appt.doctor, appointment_date := newDate,
    appointment_time := newTime, duration := appt.duration,
    status := .scheduled, appointment_type := appt.appointment_type,
    reason_for_visit := appt.reason_for_visit, symptoms := appt.symptoms,
    special_instructions := appt.special_instructions,
    scheduled_by := appt.scheduled_by, is_confirmed := false,
    confirmed_at := none, checked_in_at := none,
    consultation_start_time := none, consultation_end_time := none,
    cancellation_reason := "", cancelled_at := none, cancelled_by := none,
    rescheduled_from := some appt.pk, notes := "" }

/-- `reschedule_appointment_view` (views.py lines 556-607): look up the
appointment by primary key, guard on `can_reschedule` (timezone-aware clock
`(nowD, nowT)`), validate the new slot with the reschedule form (naive clock
`(nlD, nlT)`), then on success persist the new appointment and update the
original in place to status `rescheduled` with a note.  Returns the
database after the mutation together with the new appointment, or `none`
when the request is rejected. -/
def reschedule_appointment_view (db : List Appointment) (pk : Nat)
    (newDate newTime : Nat) (reason : String) (newPk : Nat) (newId : String)
    (nowD nowT nlD nlT : Nat) : Option (List Appointment × Appointment) :=
  match db.find? (fun a => a.pk == pk) with
  | none => none
  | some appt =>
    if ! can_rescheduleB appt nowD nowT then none
    else
      match rescheduleFormClean db appt newDate newTime nlD nlT with
      | .error _ => none
      | .ok _ =>
        let newAppt := mkRescheduledAppointment appt newDate newTime newPk newId
        let oldAppt := { appt with
          status := AStatus.rescheduled,
          notes := rescheduleNote newDate newTime reason }
        some (db.map (fun a => if a.pk == pk then oldAppt else a) ++ [newAppt],
          newAppt)

/-- What C3 asserts about a successful reschedule of the appointment with
primary key `pk` turning database `db` into `db2` with new appointment
`na`: the original is found in `db`, was in a reschedulable status, the new
record copies patient/doctor/duration/type/reason and back-references the
original, and `db2` still contains the original record (not deleted, slot
fields unchanged) with status `rescheduled`, one record longer than `db`. -/
def RescheduleOutcome (db db2 : List Appointment) (pk : Nat)
    (na : Appointment) : Prop :=
  ∃ appt ∈ db, appt.pk = pk ∧
    (appt.status = AStatus.scheduled ∨ appt.status = AStatus.confirmed) ∧
    na.patient = appt.patient ∧ na.doctor = appt.doctor ∧
    na.duration = appt.duration ∧
    na.appointment_type = appt.appointment_type ∧
    na.reason_for_visit = appt.reason_for_visit ∧
    na.rescheduled_from = some appt.pk ∧
    na ∈ db2 ∧ db2.length = db.length + 1 ∧
    ∃ o ∈ db2, o.pk = appt.pk ∧ o.status = AStatus.rescheduled ∧
      o.doctor = appt.doctor ∧ o.appointment_date = appt.appointment_date ∧
      o.appointment_time = appt.appointment_time

/-- C3: whenever `reschedule_appointment_view` succeeds, the original
appointment had status scheduled or confirmed, the new appointment copies
the original's patient, doctor, duration, type and reason and points back
at it through `rescheduled_from`, and the resulting database keeps the
original record — with its slot fields intact and status `rescheduled` —
while growing by exactly the one new record. -/
theorem reschedule_creates_new (db : List Appointment) (pk : Nat)
    (newDate newTime : Nat) (reason : String) (newPk : Nat) (newId : String)
    (nowD nowT nlD nlT : Nat) (db2 : List Appointment) (na : Appointment)
    (h : reschedule_appointment_view db pk newDate newTime reason newPk newId
        nowD nowT nlD nlT = some (db2, na)) :
    RescheduleOutcome db db2 pk na := by
  unfold reschedule_appointment_view at h
  split at h
  · exact absurd h (by simp)
  next appt hfind =>
    have hmem : appt ∈ db := List.mem_of_find?_eq_some hfind
    have hpk : appt.pk = pk := by
      have := List.find?_some hfind
      exact beq_iff_eq.mp this
    split at h
    · exact absurd h (by simp)
    next hcrn =>
      have hcr : can_rescheduleB appt nowD nowT = true := by
        revert hcrn
        cases can_rescheduleB appt nowD nowT <;> simp
      split at h
      · exact absurd h (by simp)
      next u hclean =>
        simp only [Option.some.injEq, Prod.mk.injEq] at h
        obtain ⟨hdb2, hna⟩ := h
        have hstatus : appt.status = AStatus.scheduled ∨
            appt.status = AStatus.confirmed := by
          unfold can_rescheduleB at hcr
          rcases Bool.and_eq_true .. |>.mp hcr with ⟨hor, -⟩
          rcases Bool.or_eq_true .. |>.mp hor with hs | hs
          · exact Or.inl (beq_iff_eq.mp hs)
          · exact Or.inr (beq_iff_eq.mp hs)
        refine ⟨appt, hmem, hpk, hstatus, ?_⟩
        subst hna hdb2
        refine ⟨rfl, rfl, rfl, rfl, rfl, rfl, ?_, ?_, ?_⟩
        · exact List.mem_append_right _ (List.mem_singleton.mpr rfl)
        · rw [List.length_append, List.length_map]
          rfl
        · refine ⟨{ appt with
            status := AStatus.rescheduled,
            notes := rescheduleNote newDate newTime reason }, ?_, rfl, rfl,
            rfl, rfl, rfl⟩
          refine List.mem_append_left _ ?_
          refine List.mem_map.mpr ⟨appt, hmem, ?_⟩
          rw [if_pos (beq_iff_eq.mpr hpk)]

/-- Witness for C3 at a concrete state: rescheduling `sampleAppt`
(pk 1, scheduled at (40, 570)) to the free slot (41, 600) succeeds and the
resulting database and new appointment satisfy `RescheduleOutcome`. -/
theorem reschedule_creates_new_witness :
    ∃ p : List Appointment × Appointment,
      reschedule_appointment_view [sampleAppt] 1 41 600 "doctor request" 2
        "APT202601060001" 39 0 39 0 = some p ∧
      RescheduleOutcome [sampleAppt] p.1 1 p.2 := by
  have h : reschedule_appointment_view [sampleAppt] 1 41 600 "doctor request"
      2 "APT202601060001" 39 0 39 0 = some
        ([{ sampleAppt with
            status := AStatus.rescheduled,
            notes := rescheduleNote 41 600 "doctor request" },
          mkRescheduledAppointment sampleAppt 41 600 2 "APT202601060001"],
         mkRescheduledAppointment sampleAppt 41 600 2 "APT202601060001") := by
    decide
  exact ⟨_, h, reschedule_creates_new [sampleAppt] 1 41 600 "doctor request"
    2 "APT202601060001" 39 0 39 0 _ _ h⟩

/-- Errors a view reports back to the user through `messages.error` /
form re-rendering. -/
inductive ViewError where
  | invalidState
  | invalidForm
deriving DecidableEq, Repr

/-- `cancel_appointment_view` (views.py lines 519-553) acting on the loaded
appointment: if `can_cancel` fails (status not scheduled/confirmed, or the
appointment is past — in particular when it is already cancelled) the view
reports an error and the record is left untouched; `AppointmentCancelForm`
requires a non-empty reason; otherwise `Appointment.cancel_appointment`
(models.py lines 438-444) sets status `cancelled` and records the reason,
the acting staff member, and the `timezone.now()` timestamp.  Returns the
(possibly updated) record and the error reported, if any. -/
def cancel_appointment_view (a : Appointment) (reason : String) (actor : Nat)
    (nowD nowT : Nat) : Appointment × Option ViewError :=
  if ! can_cancelB a nowD nowT then (a, some .invalidState)
  else if reason == "" then (a, some .invalidForm)
  else ({ a with
    status := .cancelled,
    cancellation_reason := reason,
    cancelled_at := some (nowD, nowT),
    cancelled_by := some actor }, none)

/-- C5: cancelling an already-cancelled appointment fails with the
invalid-state error and changes nothing — in particular the first
cancellation's timestamp, reason and actor survive the second attempt;
cancellation succeeds exactly when the status is scheduled or confirmed,
the appointment is not past and a reason is supplied, and then it sets
status `cancelled` and records reason, actor and timestamp. -/
theorem cancel_appointment_rules (a : Appointment) (reason : String)
    (actor : Nat) (nowD nowT : Nat) :
    (a.status = AStatus.cancelled →
      cancel_appointment_view a reason actor nowD nowT =
        (a, some .invalidState) ∧
      (cancel_appointment_view a reason actor nowD nowT).1.cancelled_at =
        a.cancelled_at ∧
      (cancel_appointment_view a reason actor nowD nowT).1.cancellation_reason
        = a.cancellation_reason ∧
      (cancel_appointment_view a reason actor nowD nowT).1.cancelled_by =
        a.cancelled_by) ∧
    ((cancel_appointment_view a reason actor nowD nowT).2 = none ↔
      ((a.status = AStatus.scheduled ∨ a.status = AStatus.confirmed) ∧
        is_pastB a nowD nowT = false ∧ reason ≠ "")) ∧
    ((cancel_appointment_view a reason actor nowD nowT).2 = none →
      (cancel_appointment_view a reason actor nowD nowT).1 = { a with
        status := .cancelled,
        cancellation_reason := reason,
        cancelled_at := some (nowD, nowT),
        cancelled_by := some actor }) := by
  refine ⟨?_, ?_, ?_⟩
  · intro hst
    unfold cancel_appointment_view can_cancelB
    rw [hst]
    simp
  · unfold cancel_appointment_view can_cancelB
    cases hs : a.status <;> cases hp : is_pastB a nowD nowT <;>
      by_cases hr : reason = "" <;> simp_all
  · unfold cancel_appointment_view can_cancelB
    cases hs : a.status <;> cases hp : is_pastB a nowD nowT <;>
      by_cases hr : reason = "" <;> simp_all

/-- An appointment already cancelled once (timestamp, reason, actor all
recorded), used to witness C5's idempotency clause. -/
def cancelledAppt : Appointment := { sampleAppt with
  pk := 9,
  status := .cancelled,
  cancellation_reason := "patient sick",
  cancelled_at := some (38, 100),
  cancelled_by := some 4 }

/-- Witness for C5 at concrete states: the second cancellation attempt on
`cancelledAppt` fails with the invalid-state error and keeps the first
attempt's timestamp, and cancelling the scheduled `sampleAppt` with a
non-empty reason succeeds with the recorded fields. -/
theorem cancel_appointment_rules_witness :
    (cancel_appointment_view cancelledAppt "again" 2 39 0 =
      (cancelledAppt, some .invalidState)) ∧
    ((cancel_appointment_view cancelledAppt "again" 2 39 0).1.cancelled_at =
      some (38, 100)) ∧
    ((cancel_appointment_view sampleAppt "patient request" 2 39 0).1 =
      { sampleAppt with
        status := .cancelled,
        cancellation_reason := "patient request",
        cancelled_at := some (39, 0),
        cancelled_by := some 2 }) := by
  refine ⟨?_, ?_, ?_⟩
  · exact ((cancel_appointment_rules cancelledAppt "again" 2 39 0).1 rfl).1
  · exact (((cancel_appointment_rules cancelledAppt "again" 2 39 0).1
      rfl).2.1).trans rfl
  · exact (cancel_appointment_rules sampleAppt "patient request" 2 39 0).2.2
      (by decide)

/-- `Appointment.mark_confirmed` (models.py lines 413-418). -/
def mark_confirmed (a : Appointment) (now : Nat × Nat) : Appointment :=
  { a with status := .confirmed, is_confirmed := true, confirmed_at := some now }

/-- `Appointment.mark_checked_in` (models.py lines 420-424). -/
def mark_checked_in (a : Appointment) (now : Nat × Nat) : Appointment :=
  { a with status := .checked_in, checked_in_at := some now }

/-- `Appointment.complete_appointment` (models.py lines 432-436). -/
def complete_appointment (a : Appointment) (now : Nat × Nat) : Appointment :=
  { a with status := .completed, consultation_end_time := some now }

/-- `confirm_appointment_view` (views.py lines 610-624): confirm only from
`scheduled`, otherwise leave the record alone and report a warning message.
The `Bool` is true exactly when the warning branch was taken. -/
def confirm_appointment_view (a : Appointment) (now : Nat × Nat) :
    Appointment × Bool :=
  if a.status == AStatus.scheduled then (mark_confirmed a now, false)
  else (a, true)

/-- `checkin_appointment_view` (views.py lines 627-641): check in only from
`scheduled` or `confirmed`, otherwise warn and leave the record alone. -/
def checkin_appointment_view (a : Appointment) (now : Nat × Nat) :
    Appointment × Bool :=
  if a.status == AStatus.scheduled || a.status == AStatus.confirmed then
    (mark_checked_in a now, false)
  else (a, true)

/-- `complete_appointment_view` (views.py lines 644-658): complete only from
`checked_in` or `in_progress`, otherwise warn and leave the record alone. -/
def complete_appointment_view (a : Appointment) (now : Nat × Nat) :
    Appointment × Bool :=
  if a.status == AStatus.checked_in || a.status == AStatus.in_progress then
    (complete_appointment a now, false)
  else (a, true)

/-- C6: each status-transition view applies its transition only from the
permitted predecessor states — confirm only from `scheduled`, check-in only
from `scheduled` or `confirmed`, complete only from `checked_in` or
`in_progress` — and from any other state it returns the appointment
unchanged together with a warning flag (the views are total functions: they
warn instead of raising). -/
theorem appointment_transition_guards (a : Appointment) (now : Nat × Nat) :
    (a.status = AStatus.scheduled →
      confirm_appointment_view a now = (mark_confirmed a now, false) ∧
      (confirm_appointment_view a now).1.status = AStatus.confirmed) ∧
    (a.status ≠ AStatus.scheduled →
      confirm_appointment_view a now = (a, true)) ∧
    ((a.status = AStatus.scheduled ∨ a.status = AStatus.confirmed) →
      checkin_appointment_view a now = (mark_checked_in a now, false) ∧
      (checkin_appointment_view a now).1.status = AStatus.checked_in) ∧
    (¬ (a.status = AStatus.scheduled ∨ a.status = AStatus.confirmed) →
      checkin_appointment_view a now = (a, true)) ∧
    ((a.status = AStatus.checked_in ∨ a.status = AStatus.in_progress) →
      complete_appointment_view a now = (complete_appointment a now, false) ∧
      (complete_appointment_view a now).1.status = AStatus.completed) ∧
    (¬ (a.status = AStatus.checked_in ∨ a.status = AStatus.in_progress) →
      complete_appointment_view a now = (a, true)) := by
  unfold confirm_appointment_view checkin_appointment_view
    complete_appointment_view
  refine ⟨?_, ?_, ?_, ?_, ?_, ?_⟩
  · intro h; rw [h]; exact ⟨rfl, rfl⟩
  · intro h
    rw [if_neg (by simpa using h)]
  · intro h
    have hb : (a.status == AStatus.scheduled
        || a.status == AStatus.confirmed) = true := by
      rcases h with hs | hs <;> rw [hs] <;> simp
    rw [hb]
    exact ⟨rfl, rfl⟩
  · intro h
    have hb : (a.status == AStatus.scheduled
        || a.status == AStatus.confirmed) = false := by
      cases hs : a.status <;> simp_all
    rw [hb]
    simp
  · intro h
    have hb : (a.status == AStatus.checked_in
        || a.status == AStatus.in_progress) = true := by
      rcases h with hs | hs <;> rw [hs] <;> simp
    rw [hb]
    exact ⟨rfl, rfl⟩
  · intro h
    have hb : (a.status == AStatus.checked_in
        || a.status == AStatus.in_progress) = false := by
      cases hs : a.status <;> simp_all
    rw [hb]
    simp

/-- Witness for C6 at concrete states: confirming the scheduled
`sampleAppt` transitions it to `confirmed`, while confirming the cancelled
`cancelledAppt` leaves it unchanged with a warning; completing the
scheduled `sampleAppt` (no check-in yet) also warns and changes nothing. -/
theorem appointment_transition_guards_witness :
    (confirm_appointment_view sampleAppt (39, 30) =
      (mark_confirmed sampleAppt (39, 30), false)) ∧
    (confirm_appointment_view cancelledAppt (39, 30) =
      (cancelledAppt, true)) ∧
    (complete_appointment_view sampleAppt (39, 30) = (sampleAppt, true)) := by
  refine ⟨?_, ?_, ?_⟩
  · exact ((appointment_transition_guards sampleAppt (39, 30)).1 rfl).1
  · exact (appointment_transition_guards cancelledAppt (39, 30)).2.1
      (by decide)
  · exact (appointment_transition_guards sampleAppt
      (39, 30)).2.2.2.2.2 (by decide)

/-- One row of the `doctor_availability` table (models.py
`DoctorAvailability`), with the fields `get_available_time_slots` reads. -/
structure DoctorAvailabilityRec where
  doctor : Nat
  date : Nat
  start_time : Nat
  end_time : Nat
  is_available : Bool
  max_appointments : Nat
deriving DecidableEq, Repr

/-- One generated slot: its start time and the `available` flag
(`not is_booked`). -/
structure TimeSlot where
  time : Nat
  available : Bool
deriving DecidableEq, Repr

/-- The per-slot booking query inside `get_available_time_slots`
(models.py lines 545-550): some appointment for this doctor and date sits
exactly at `tme` with an active status. -/
def slotBookedB (db : List Appointment) (doctor dte tme : Nat) : Bool :=
  db.any fun a =>
    a.doctor == doctor && a.appointment_date == dte
      && a.appointment_time == tme && activeStatuses.contains a.status

/-- The `while current_time < end_time` loop of
`get_available_time_slots` (models.py lines 542-557).  The `0 < step`
side condition makes the recursion well founded; the source loops forever
on a zero duration, a case outside every claim. -/
def get_available_time_slots_loop (db : List Appointment) (doctor dte : Nat)
    (cur endT step : Nat) : List TimeSlot :=
  if h : cur < endT ∧ 0 < step then
    { time := cur, available := ! slotBookedB db doctor dte cur } ::
      get_available_time_slots_loop db doctor dte (cur + step) endT step
  else []
termination_by endT - cur
decreasing_by omega

/-- `DoctorAvailability.get_available_time_slots` (models.py lines
534-559): the slot sequence for the availability window, at interval
`slot_duration`. -/
def get_available_time_slots (db : List Appointment)
    (av : DoctorAvailabilityRec) (slot_duration : Nat) : List TimeSlot :=
  get_available_time_slots_loop db av.doctor av.date av.start_time
    av.end_time slot_duration

theorem slotBookedB_iff (db : List Appointment) (doctor dte tme : Nat) :
    slotBookedB db doctor dte tme = true ↔
      HasActiveConflict db doctor dte tme := by
  unfold slotBookedB HasActiveConflict
  rw [List.any_eq_true]
  constructor
  · rintro ⟨a, ha, hb⟩
    simp only [Bool.and_eq_true, beq_iff_eq] at hb
    exact ⟨a, ha, hb.1.1.1, hb.1.1.2, hb.1.2,
      contains_eq_mem_status.mp hb.2⟩
  · rintro ⟨a, ha, h1, h2, h3, h4⟩
    refine ⟨a, ha, ?_⟩
    simp only [Bool.and_eq_true, beq_iff_eq]
    exact ⟨⟨⟨h1, h2⟩, h3⟩, contains_eq_mem_status.mpr h4⟩

theorem notSlotBookedB_eq_decide (db : List Appointment)
    (doctor dte tme : Nat) :
    (! slotBookedB db doctor dte tme) =
      decide (¬ HasActiveConflict db doctor dte tme) := by
  cases hb : slotBookedB db doctor dte tme
  · have : ¬ HasActiveConflict db doctor dte tme := fun hc => by
      rw [(slotBookedB_iff db doctor dte tme).mpr hc] at hb
      cases hb
    simp [this]
  · have := (slotBookedB_iff db doctor dte tme).mp hb
    simp [this]

theorem get_available_time_slots_loop_get? (db : List Appointment)
    (doctor dte : Nat) (step : Nat) (hstep : 0 < step) :
    ∀ (k cur endT : Nat),
      (get_available_time_slots_loop db doctor dte cur endT step).get? k =
        if cur + k * step < endT then
          some { time := cur + k * step,
                 available := ! slotBookedB db doctor dte (cur + k * step) }
        else none := by
  intro k
  induction k with
  | zero =>
    intro cur endT
    unfold get_available_time_slots_loop
    by_cases h : cur < endT
    · rw [dif_pos ⟨h, hstep⟩]
      simp [h]
    · rw [dif_neg (by omega)]
      simp [h]
  | succ k ih =>
    intro cur endT
    unfold get_available_time_slots_loop
    by_cases h : cur < endT
    · rw [dif_pos ⟨h, hstep⟩]
      have harith : cur + step + k * step = cur + (k + 1) * step := by ring
      rw [List.get?_cons_succ, ih (cur + step) endT, harith]
    · rw [dif_neg (by omega)]
      have hge : ¬ cur + (k + 1) * step < endT := by
        have : cur ≤ cur + (k + 1) * step := Nat.le_add_right ..
        omega
      simp [hge]

/-- C7: for every positive slot duration `d`, the generated slot list is
exactly the sequence `start, start + d, start + 2d, ...` of times strictly
below the window end, in order (the k-th slot, when it exists, starts at
`start + k * d`), and each slot's `available` flag is false exactly when
some appointment for that doctor and date sits at that time with an active
status. -/
theorem available_time_slots_spec (db : List Appointment)
    (av : DoctorAvailabilityRec) (d : Nat) (hd : 0 < d) (k : Nat) :
    (get_available_time_slots db av d).get? k =
      if av.start_time + k * d < av.end_time then
        some { time := av.start_time + k * d,
               available := decide (¬ HasActiveConflict db av.doctor av.date
                 (av.start_time + k * d)) }
      else none := by
  unfold get_available_time_slots
  rw [get_available_time_slots_loop_get? db av.doctor av.date d hd k
    av.start_time av.end_time,
    notSlotBookedB_eq_decide]

/-- The 09:00-12:00 availability window of doctor 3 on day 40 used by the
C7 witness. -/
def morningWindow : DoctorAvailabilityRec :=
  { doctor := 3, date := 40, start_time := 540, end_time := 720,
    is_available := true, max_appointments := 10 }

/-- Witness for C7, the spec scenario: window 09:00-12:00 (minutes 540-720)
with 30-minute slots and one scheduled appointment at 09:30 (minute 570,
`sampleAppt`): slot 0 (09:00) is available, slot 1 (09:30) is booked,
slot 2 (10:00) is available, and there is no slot 6 (12:00). -/
theorem available_time_slots_spec_witness :
    ((get_available_time_slots [sampleAppt] morningWindow 30).get? 0 =
      some { time := 540, available := true }) ∧
    ((get_available_time_slots [sampleAppt] morningWindow 30).get? 1 =
      some { time := 570, available := false }) ∧
    ((get_available_time_slots [sampleAppt] morningWindow 30).get? 2 =
      some { time := 600, available := true }) ∧
    ((get_available_time_slots [sampleAppt] morningWindow 30).get? 6 =
      none) := by
  refine ⟨?_, ?_, ?_, ?_⟩
  · exact (available_time_slots_spec [sampleAppt] morningWindow 30
      (by decide) 0).trans (by decide)
  · exact (available_time_slots_spec [sampleAppt] morningWindow 30
      (by decide) 1).trans (by decide)
  · exact (available_time_slots_spec [sampleAppt] morningWindow 30
      (by decide) 2).trans (by decide)
  · exact (available_time_slots_spec [sampleAppt] morningWindow 30
      (by decide) 6).trans (by decide)

/-- Python's zero-padding format `%0wd` / `{n:0wd}`: decimal digits of `n`
left-padded with zeros to width `w` (wider numbers print in full). -/
def padNum (w n : Nat) : String :=
  let s := toString n
  String.mk (List.replicate (w - s.length) '0') ++ s

/-- `strftime('%Y%m%d')`: zero-padded year, month and day concatenated. -/
def ymdStr (d : Ymd) : String :=
  padNum 4 d.y ++ padNum 2 d.m ++ padNum 2 d.d

/-- `Queue.objects.filter(queue_date=today).count()` (models.py line 250). -/
def sameDateCount (db : List QueueEntry) (today : Ymd) : Nat :=
  (db.filter fun q => q.queue_date == today).length

/-- `Queue.generate_queue_number` (models.py lines 246-251): `Q` + today as
`YYYYMMDD` + the count of entries with today's queue date plus one,
zero-padded to three digits. -/
def generate_queue_number (db : List QueueEntry) (today : Ymd) : String :=
  "Q" ++ ymdStr today ++ padNum 3 (sameDateCount db today + 1)

/-- Sequential enqueue (`QueueForm.save`, forms.py lines 161-181): each new
entry receives the generated queue number and today's date and is persisted
before the next number is generated; `mk i` supplies the other fields of
the i-th entry, and nothing is ever deleted. -/
def enqueueN (db : List QueueEntry) (today : Ymd) (mk : Nat → QueueEntry) :
    Nat → List QueueEntry
  | 0 => db
  | k + 1 =>
    let db2 := enqueueN db today mk k
    db2 ++ [{ mk k with
      queue_number := generate_queue_number db2 today,
      queue_date := today }]

theorem sameDateCount_append_today (db : List QueueEntry) (today : Ymd)
    (e : QueueEntry) (he : e.queue_date = today) :
    sameDateCount (db ++ [e]) today = sameDateCount db today + 1 := by
  unfold sameDateCount
  rw [List.filter_append, List.length_append]
  have : (List.filter (fun q => q.queue_date == today) [e]).length = 1 := by
    rw [List.filter_cons]
    rw [if_pos (by exact beq_iff_eq.mpr he)]
    rfl
  rw [this]

/-- C8: under sequential enqueue the daily sequence number embedded in the
queue number is `(initial same-date count) + k + 1` after `k` enqueues — so
consecutive same-date numbers are strictly increasing with no gaps — the
generated string is `Q` + `YYYYMMDD` + that sequence zero-padded to three
digits, and when no entry of today's date exists yet the sequence starts at
1. -/
theorem queue_number_sequence (db : List QueueEntry) (today : Ymd)
    (mk : Nat → QueueEntry) (k : Nat) :
    sameDateCount (enqueueN db today mk k) today =
      sameDateCount db today + k ∧
    generate_queue_number (enqueueN db today mk k) today =
      "Q" ++ ymdStr today ++ padNum 3 (sameDateCount db today + k + 1) ∧
    ((∀ q ∈ db, q.queue_date ≠ today) →
      generate_queue_number db today = "Q" ++ ymdStr today ++ padNum 3 1) := by
  have hcount : ∀ n, sameDateCount (enqueueN db today mk n) today =
      sameDateCount db today + n := by
    intro n
    induction n with
    | zero => rfl
    | succ n ih =>
      show sameDateCount (enqueueN db today mk n ++ [_]) today = _
      rw [sameDateCount_append_today _ today _ rfl, ih]
      omega
  refine ⟨hcount k, ?_, ?_⟩
  · unfold generate_queue_number
    rw [hcount k]
  · intro hnone
    have hzero : sameDateCount db today = 0 := by
      unfold sameDateCount
      rw [List.length_eq_zero]
      rw [List.filter_eq_nil_iff]
      intro q hq
      simpa using hnone q hq
    unfold generate_queue_number
    rw [hzero]

/-- Witness for C8 at concrete states: starting from the empty store on
date 2025-01-15, the first generated queue number is `Q20250115001`, and
after two sequential enqueues the third generated number is
`Q20250115003`; on a pre-populated store whose single entry belongs to a
different date, the sequence still starts at 1. -/
theorem queue_number_sequence_witness :
    (generate_queue_number [] qToday = "Q20250115001") ∧
    (generate_queue_number
      (enqueueN [] qToday (fun _ => qNormal) 2) qToday = "Q20250115003") ∧
    (generate_queue_number [{ qNormal with
        queue_date := { y := 2025, m := 1, d := 14 } }] qToday =
      "Q20250115001") := by
  refine ⟨?_, ?_, ?_⟩
  · exact ((queue_number_sequence [] qToday (fun _ => qNormal) 0).2.2
      (by simp)).trans (by decide)
  · exact ((queue_number_sequence [] qToday (fun _ => qNormal) 2).2.1).trans
      (by decide)
  · exact ((queue_number_sequence
      [{ qNormal with queue_date := { y := 2025, m := 1, d := 14 } }]
      qToday (fun _ => qNormal) 0).2.2 (by decide)).trans (by decide)

/-- One row of the `patient` table, with the fields `clean_patient_id`
reads: the auto primary key and the stored patient id string. -/
structure PatientRec where
  pk : Nat
  patient_id : String
deriving DecidableEq, Repr

/-- `Patient.objects.all().order_by('-id').first()` (forms.py line 105):
the patient with the largest primary key, i.e. the most recently created
one, or `none` on an empty table. -/
def lastByPk (db : List PatientRec) : Option PatientRec :=
  db.foldl (fun acc p =>
    match acc with
    | none => some p
    | some q => if q.pk < p.pk then some p else some q) none

/-- `patient_id.replace('PAT', '')` for well-formed ids of the shape
`PAT` followed by digits: drop the prefix. -/
def stripPAT (s : String) : String :=
  match s.toList with
  | 'P' :: 'A' :: 'T' :: rest => String.mk rest
  | _ => s

/-- Python `int(...)` on a decimal digit string. -/
def digitsToNat (s : String) : Nat :=
  s.toList.foldl (fun n c => n * 10 + (c.toNat - 48)) 0

/-- `PatientForm.clean_patient_id` (forms.py lines 101-111): a manually
supplied id passes through; otherwise the id is `PAT` + five-digit
zero-padded (suffix of the most recently created patient + 1), or
`PAT00001` on an empty table. -/
def clean_patient_id (db : List PatientRec) (input : String) : String :=
  if input != "" then input
  else
    match lastByPk db with
    | some p => "PAT" ++ padNum 5 (digitsToNat (stripPAT p.patient_id) + 1)
    | none => "PAT00001"

/-- The patient table falsifying C9: the most recently created patient
(pk 2) has suffix 2, while the numerically highest suffix, 5, belongs to an
older record. -/
def patientDbCx : List PatientRec :=
  [{ pk := 1, patient_id := "PAT00005" }, { pk := 2, patient_id := "PAT00002" }]

/-- C9 counterexample: on `patientDbCx` the numerically highest existing
suffix is 5, so the claim dictates the auto-generated id `PAT00006`; the
code instead parses the most recently created patient (highest primary key,
suffix 2) and produces `PAT00003`. -/
theorem clean_patient_id_counterexample :
    clean_patient_id patientDbCx "" = "PAT00003" ∧
    clean_patient_id patientDbCx "" ≠ "PAT00006" := by
  refine ⟨by decide, by decide⟩

theorem foldl_lastStep_some : ∀ (l : List PatientRec) (p : PatientRec),
    ∃ r, (l.foldl (fun acc x =>
        match acc with
        | none => some x
        | some q => if q.pk < x.pk then some x else some q) (some p)) =
      some r := by
  intro l
  induction l with
  | nil => exact fun p => ⟨p, rfl⟩
  | cons x l ih =>
    intro p
    rw [List.foldl_cons]
    by_cases h : p.pk < x.pk
    · simpa [h] using ih x
    · simpa [h] using ih p

theorem lastByPk_max (db : List PatientRec) :
    ∀ p, lastByPk db = some p → p ∈ db ∧ ∀ q ∈ db, q.pk ≤ p.pk := by
  have hgo : ∀ (l : List PatientRec) (p : PatientRec),
      ∃ r, (l.foldl (fun acc x =>
          match acc with
          | none => some x
          | some q => if q.pk < x.pk then some x else some q) (some p)) =
        some r ∧ (r = p ∨ r ∈ l) ∧ p.pk ≤ r.pk ∧ ∀ q ∈ l, q.pk ≤ r.pk := by
    intro l
    induction l with
    | nil => exact fun p => ⟨p, rfl, Or.inl rfl, Nat.le_refl _, by simp⟩
    | cons x l ih =>
      intro p
      by_cases hlt : p.pk < x.pk
      · obtain ⟨r, hr, hmem, hle, hall⟩ := ih x
        refine ⟨r, ?_, ?_, ?_, ?_⟩
        · simpa [hlt] using hr
        · rcases hmem with h | h
          · exact Or.inr (h ▸ List.mem_cons_self ..)
          · exact Or.inr (List.mem_cons_of_mem _ h)
        · omega
        · intro q hq
          rcases List.mem_cons.mp hq with h | h
          · subst h; exact hle
          · exact hall q h
      · obtain ⟨r, hr, hmem, hle, hall⟩ := ih p
        refine ⟨r, ?_, ?_, hle, ?_⟩
        · simpa [hlt] using hr
        · rcases hmem with h | h
          · exact Or.inl h
          · exact Or.inr (List.mem_cons_of_mem _ h)
        · intro q hq
          rcases List.mem_cons.mp hq with h | h
          · subst h; omega
          · exact hall q h
  intro p hp
  cases db with
  | nil => cases hp
  | cons x l =>
    obtain ⟨r, hr, hmem, hle, hall⟩ := hgo l x
    have hfold : lastByPk (x :: l) = some r := by
      unfold lastByPk
      rw [List.foldl_cons]
      exact hr
    rw [hfold] at hp
    cases hp
    constructor
    · rcases hmem with h | h
      · exact h ▸ List.mem_cons_self ..
      · exact List.mem_cons_of_mem _ h
    · intro q hq
      rcases List.mem_cons.mp hq with h | h
      · subst h; exact hle
      · exact hall q h

/-- C9 amended: when the patient-id field is left empty, the auto-generated
id is `PAT` + five-digit zero-padded (numeric suffix of the MOST RECENTLY
CREATED patient — the one with the highest primary key — plus 1), not of
the numerically highest suffix; it is `PAT00001` when no patients exist. -/
theorem clean_patient_id_last_created (db : List PatientRec) :
    (db = [] → clean_patient_id db "" = "PAT00001") ∧
    (db ≠ [] → ∃ p ∈ db, (∀ q ∈ db, q.pk ≤ p.pk) ∧
      clean_patient_id db "" =
        "PAT" ++ padNum 5 (digitsToNat (stripPAT p.patient_id) + 1)) := by
  constructor
  · intro h
    subst h
    rfl
  · intro hne
    cases hlast : lastByPk db with
    | none =>
      exfalso
      cases db with
      | nil => exact hne rfl
      | cons x l =>
        obtain ⟨r, hr⟩ := foldl_lastStep_some l x
        have hsome : lastByPk (x :: l) = some r := by
          unfold lastByPk
          rw [List.foldl_cons]
          exact hr
        rw [hlast] at hsome
        exact Option.noConfusion hsome
    | some p =>
      obtain ⟨hmem, hmax⟩ := lastByPk_max db p hlast
      refine ⟨p, hmem, hmax, ?_⟩
      unfold clean_patient_id
      rw [hlast]
      rfl

/-- Witness for C9 (amended) at a concrete state: on `patientDbCx` the
highest-pk patient is pk 2 with suffix 2, and the generated id is
`PAT00003`; on the empty table the generated id is `PAT00001`. -/
theorem clean_patient_id_last_created_witness :
    (clean_patient_id [] "" = "PAT00001") ∧
    (∃ p ∈ patientDbCx, (∀ q ∈ patientDbCx, q.pk ≤ p.pk) ∧
      clean_patient_id patientDbCx "" =
        "PAT" ++ padNum 5 (digitsToNat (stripPAT p.patient_id) + 1)) := by
  refine ⟨(clean_patient_id_last_created []).1 rfl, ?_⟩
  exact (clean_patient_id_last_created patientDbCx).2 (by decide)

/-- `string.ascii_uppercase + string.digits`: the alphabet of the random
fallback suffix. -/
def aptAlphabet : List Char := "ABCDEFGHIJKLMNOPQRSTUVWXYZ0123456789".toList

/-- The candidate id computed inside each loop iteration of
`Appointment.generate_appointment_id` (models.py lines 459-464): `APT` +
date string + four-digit zero-padded (count of appointment ids carrying
that date prefix, plus one). -/
def aptCandidate (ids : List String) (dateStr : String) : String :=
  "APT" ++ dateStr ++
    padNum 4 ((ids.filter fun i => ("APT" ++ dateStr).toList
        = i.toList.take ("APT" ++ dateStr).toList.length).length + 1)

/-- The `for attempt in range(max_attempts)` loop (models.py lines
456-468): recompute the candidate from the unchanged store, return it if
unused, otherwise retry; `none` when all attempts collide. -/
def generate_appointment_id_loop (ids : List String) (dateStr : String) :
    Nat → Option String
  | 0 => none
  | n + 1 =>
    let cand := aptCandidate ids dateStr
    if ids.contains cand then generate_appointment_id_loop ids dateStr n
    else some cand

/-- `random.choices(string.ascii_uppercase + string.digits, k=4)` with the
random stream modelled by `rng`. -/
def randomSuffix (rng : Nat → Fin 36) : String :=
  String.mk ((List.range 4).map fun i => aptAlphabet.getD (rng i).val 'A')

/-- `Appointment.generate_appointment_id` (models.py lines 446-472): 100
loop attempts, then the random fallback `APT` + date string + 4 random
alphanumeric characters. -/
def generate_appointment_id (ids : List String) (dateStr : String)
    (rng : Nat → Fin 36) : String :=
  match generate_appointment_id_loop ids dateStr 100 with
  | some i => i
  | none => "APT" ++ dateStr ++ randomSuffix rng

theorem generate_appointment_id_loop_collapse (ids : List String)
    (dateStr : String) :
    ∀ n : Nat, generate_appointment_id_loop ids dateStr (n + 1) =
      if ids.contains (aptCandidate ids dateStr) then none
      else some (aptCandidate ids dateStr) := by
  intro n
  induction n with
  | zero =>
    show (if ids.contains (aptCandidate ids dateStr) then none
      else some (aptCandidate ids dateStr)) = _
    rfl
  | succ n ih =>
    show (if ids.contains (aptCandidate ids dateStr) then
        generate_appointment_id_loop ids dateStr (n + 1)
      else some (aptCandidate ids dateStr)) = _
    cases hc : ids.contains (aptCandidate ids dateStr)
    · simp
    · rw [if_pos rfl, if_pos rfl, ih, if_pos hc]

/-- C10: the candidate id is the same in every retry iteration (nothing is
inserted inside the loop), so `generate_appointment_id` returns exactly the
single sequential candidate `APT` + date + zero-padded (same-date-prefix
count + 1) when it is unused, and otherwise the random fallback `APT` +
date + a 4-character suffix drawn from the uppercase-alphanumeric alphabet;
no other sequential candidate is ever tried. -/
theorem generate_appointment_id_spec (ids : List String) (dateStr : String)
    (rng : Nat → Fin 36) :
    (generate_appointment_id_loop ids dateStr 100 =
      if ids.contains (aptCandidate ids dateStr) then none
      else some (aptCandidate ids dateStr)) ∧
    (ids.contains (aptCandidate ids dateStr) = false →
      generate_appointment_id ids dateStr rng = aptCandidate ids dateStr) ∧
    (ids.contains (aptCandidate ids dateStr) = true →
      generate_appointment_id ids dateStr rng =
        "APT" ++ dateStr ++ randomSuffix rng) ∧
    (randomSuffix rng).toList.length = 4 ∧
    (∀ c ∈ (randomSuffix rng).toList, c ∈ aptAlphabet) := by
  have hloop := generate_appointment_id_loop_collapse ids dateStr 99
  refine ⟨hloop, ?_, ?_, ?_, ?_⟩
  · intro hc
    unfold generate_appointment_id
    rw [hloop, hc]
    simp
  · intro hc
    unfold generate_appointment_id
    rw [hloop, hc]
    simp
  · rfl
  · intro c hc
    have : c ∈ (List.range 4).map fun i => aptAlphabet.getD (rng i).val 'A' := hc
    obtain ⟨i, -, hi⟩ := List.mem_map.mp this
    have hlt : (rng i).val < aptAlphabet.length := (rng i).isLt
    rw [← hi, List.getD_eq_getElem _ _ hlt]
    exact List.getElem_mem ..

/-- Witness for C10 at concrete states: on a store with one other-date id,
the generated id is the sequential `APT202501150001`; on a store already
containing that candidate, the result is the fallback `APT20250115` + the
suffix drawn from the (constant-zero) random stream, namely `AAAA`. -/
theorem generate_appointment_id_spec_witness :
    (generate_appointment_id ["APT202501140001"] "20250115"
      (fun _ => ⟨0, by decide⟩) = "APT202501150001") ∧
    (generate_appointment_id ["APT202501150002"] "20250115"
      (fun _ => ⟨0, by decide⟩) = "APT20250115AAAA") := by
  constructor
  · exact ((generate_appointment_id_spec ["APT202501140001"] "20250115"
      (fun _ => ⟨0, by decide⟩)).2.1 (by decide)).trans (by decide)
  · exact ((generate_appointment_id_spec ["APT202501150002"] "20250115"
      (fun _ => ⟨0, by decide⟩)).2.2.1 (by decide)).trans (by decide)
